import Mathlib

/-!
# Verification of the Arctan-OS/Kmm kernel memory manager

Shallow embedding of the allocators in `src/c/` (watermark, freelist,
buddy, SLAB, PMM routing, general allocator) and proofs about the
claims of the specification.  Pointers are modelled as natural numbers
(`0` is the C `NULL`), raw memory as total functions `Nat → Nat`, and
the C control flow is translated function by function.  Loops whose
bound is not structural take an explicit fuel argument that every
theorem instantiates generously.
-/

namespace Kmm

/-- Modelled from the spec: the architecture constant `PAGE_SIZE`
(`arch/x86-64/config.h` is not part of this repository).  The spec
fixes `PAGE_SIZE = 4096` in scenario S5. -/
def PAGE_SIZE : Nat := 4096

/-- Doubling loop: the smallest power of two `≥ n` reachable from `p`
within `fuel` doublings (64 covers every `size_t`). -/
def nextPow2Go : Nat → Nat → Nat → Nat
  | 0, p, _ => p
  | fuel + 1, p, n => if n ≤ p then p else nextPow2Go fuel (p * 2) n

/-- Modelled from the spec: the `SIZE_T_NEXT_POW2` macro of
`lib/util.h` (not part of this repository) rounds a size up to the
next power of two, leaving exact powers of two unchanged. -/
def nextPow2 (n : Nat) : Nat :=
  if n ≤ 1 then n else nextPow2Go 64 1 n

/-- Count of trailing zero bits (fuel-bounded halving; 64 bits). -/
def ctzGo : Nat → Nat → Nat
  | 0, _ => 0
  | fuel + 1, n => if n % 2 = 1 ∨ n = 0 then 0 else ctzGo fuel (n / 2) + 1

/-- `__builtin_ctz`: on a power of two, its exponent. -/
def ctz (n : Nat) : Nat := ctzGo 64 n

/-- The request exponent computed by the C code:
`SIZE_T_NEXT_POW2(size); exp = __builtin_ctz(size)`. -/
def reqExp (size : Nat) : Nat := ctz (nextPow2 size)

/-! ## General allocator (`src/c/allocator.c`)

`alloc` and `calloc` only decide *where* a request goes (SLAB or
VMM/PMM path) and with which size; that routing decision is the whole
content of claim C3, so the embedding records the delegated call. -/

/-- The call `alloc`/`calloc` delegates to: either `vmm_alloc n`
(the VMM/PMM path for large requests) or `pslab_alloc n` (the SLAB). -/
inductive AllocRoute where
  | vmm (n : Nat)
  | slab (n : Nat)
  deriving DecidableEq, Repr

/-- `alloc` from `src/c/allocator.c`:
`if (size > PAGE_SIZE / 2) return vmm_alloc(max(PAGE_SIZE, size));
 return pslab_alloc(&meta, size);` -/
def alloc (size : Nat) : AllocRoute :=
  if size > PAGE_SIZE / 2 then .vmm (max PAGE_SIZE size) else .slab size

/-- `calloc` from `src/c/allocator.c`:
`size_t final = size * count;
 if (final > PAGE_SIZE / 2) return vmm_alloc(max(PAGE_SIZE, size));
 return pslab_alloc(&meta, final);`
Note the large branch passes `size`, not `final`. -/
def calloc (size count : Nat) : AllocRoute :=
  let final := size * count
  if final > PAGE_SIZE / 2 then .vmm (max PAGE_SIZE size) else .slab final

/-! ## Watermark allocator (`src/c/algo/pwatermark.c`)

A watermark region is `{base, ceil, off}`; the `ARC_PWatermark` list
head chains the regions, embedded as a Lean `List` in chain order. -/

structure PWatermarkMeta where
  base : Nat
  ceil : Nat
  off : Nat
  deriving DecidableEq, Repr

/-- The region-walk loop of `pwatermark_alloc`: skip every region with
`current->base + current->off + size > current->ceil`; on the first
fit return `base + off` and bump `off` by `size`. -/
def pwatermark_walk (size : Nat) : List PWatermarkMeta → Option Nat × List PWatermarkMeta
  | [] => (none, [])
  | m :: rest =>
    if m.base + m.off + size > m.ceil then
      let (r, rest') := pwatermark_walk size rest
      (r, m :: rest')
    else
      (some (m.base + m.off), { m with off := m.off + size } :: rest)

/-- `pwatermark_alloc` from `src/c/algo/pwatermark.c`: `NULL` list head
or `size == 0` fails, otherwise walk the region chain. -/
def pwatermark_alloc (metas : List PWatermarkMeta) (size : Nat) :
    Option Nat × List PWatermarkMeta :=
  if size = 0 then (none, metas) else pwatermark_walk size metas

/-- The claim's fit condition: `off + n ≤ ceil - base`. -/
def pwFits (n : Nat) (m : PWatermarkMeta) : Prop := m.off + n ≤ m.ceil - m.base

instance (n : Nat) (m : PWatermarkMeta) : Decidable (pwFits n m) := by
  unfold pwFits; infer_instance

theorem pwFits_iff_cond (n : Nat) (m : PWatermarkMeta) (hn : n ≠ 0) :
    pwFits n m ↔ ¬ (m.base + m.off + n > m.ceil) := by
  unfold pwFits; omega

/-! ## PMM free routing (`src/c/pmm.c`, `pmm_internal_free`)

The loop body calls `pbuddy_free(&buddies[bias], address)` and
`pfreelist_free(&freelists[bias], address)` on the per-exponent
allocator tables.  Claim C8 is about the routing of the scan and the
returned size only, so these two calls are abstracted as result
oracles `bfree`/`ffree`: `bfree b address` is the size reported by the
buddy attached to bias exponent `b` (`0` = address not claimed) and
`ffree b address` is the return value of the freelist free at `b`
(the code tests it against `address`; `0` = `NULL` = not claimed). -/

/-- The bias-scan loop of `pmm_internal_free`: buddy first, then
freelist, first claim wins; fall through to the fast-page pool. -/
def pmm_free_scan (bfree ffree : Nat → Nat → Nat) (address : Nat) :
    List Nat → Nat
  | [] => PAGE_SIZE
  | b :: rest =>
    let s := bfree b address
    if s > 0 then s
    else if ffree b address = address then 2 ^ b
    else pmm_free_scan bfree ffree address rest

/-- `pmm_internal_free` from `src/c/pmm.c`: a `NULL` address frees
nothing; otherwise scan the bias table in order; when no bias claims
the address it is passed to `pmm_fast_page_free` and `PAGE_SIZE` is
returned. -/
def pmm_internal_free (bfree ffree : Nat → Nat → Nat) (biases : List Nat)
    (address : Nat) : Nat :=
  if address = 0 then 0
  else pmm_free_scan bfree ffree address biases

/-- A bias exponent `b` "claims" an address when the buddy reports a
positive size or the freelist returns the address back. -/
def pmmClaims (bfree ffree : Nat → Nat → Nat) (address b : Nat) : Prop :=
  0 < bfree b address ∨ ffree b address = address

instance (bfree ffree : Nat → Nat → Nat) (address b : Nat) :
    Decidable (pmmClaims bfree ffree address b) := by
  unfold pmmClaims; infer_instance

/-! ## Freelist allocator (`src/c/algo/pfreelist.c`)

The in-band `next` pointers live in the region's memory, modelled as a
word map `mem : Nat → Nat` (`mem a` = the 8-byte word stored at
address `a`; `0` is `NULL`).  `struct ARC_PFreelistMeta` is the header
written at the region base; the claims exercise single regions used
sequentially, so the `meta->next` region chain is the empty chain and
the chain-walk loops reduce to their single-region case, noted at each
function.  `free_objects` is a C `uint64_t`; arithmetic on it wraps
modulo `2^64`. -/

def U64 : Nat := 2 ^ 64

/-- Wrapping `uint64_t` addition. -/
def u64add (a b : Nat) : Nat := (a + b) % U64

/-- Wrapping `uint64_t` subtraction (for `a`, `b` already reduced). -/
def u64sub (a b : Nat) : Nat := (a % U64 + (U64 - b % U64)) % U64

/-- `struct ARC_PFreelistMeta` (`pfreelist.h`), minus the lock (claims
are sequential) and minus the region-chain `next` (single region). -/
structure PFreelistMeta where
  head : Nat
  base : Nat
  ceil : Nat
  object_size : Nat
  free_objects : Nat
  deriving DecidableEq, Repr

/-- `ADDRESS_IN_META` from `pfreelist.c`: `base <= address && address
<= ceil` (both bounds inclusive). -/
def ADDRESS_IN_META (address : Nat) (meta : PFreelistMeta) : Prop :=
  meta.base ≤ address ∧ address ≤ meta.ceil

instance (address : Nat) (meta : PFreelistMeta) :
    Decidable (ADDRESS_IN_META address meta) := by
  unfold ADDRESS_IN_META; infer_instance

/-- `pfreelist_alloc`: with a single region, the entry loop rejects a
meta with `free_objects < 1`; otherwise pop `head` and decrement
`free_objects`.  Returns the popped node (`none` = `NULL`). -/
def pfreelist_alloc (mem : Nat → Nat) (meta : PFreelistMeta) :
    Option Nat × (Nat → Nat) × PFreelistMeta :=
  if meta.free_objects < 1 then (none, mem, meta)
  else if meta.head = 0 then (none, mem, meta)
  else (some meta.head, mem,
    { meta with head := mem meta.head, free_objects := u64sub meta.free_objects 1 })

/-- `pfreelist_free`: reject `NULL`; find the region containing the
address (single region: the bounds check); push the node onto `head`
and increment `free_objects`.  Returns the address on success. -/
def pfreelist_free (mem : Nat → Nat) (meta : PFreelistMeta) (address : Nat) :
    Option Nat × (Nat → Nat) × PFreelistMeta :=
  if address = 0 then (none, mem, meta)
  else if ¬ ADDRESS_IN_META address meta then (none, mem, meta)
  else (some address, fun a => if a = address then meta.head else mem a,
    { meta with head := address, free_objects := u64add meta.free_objects 1 })

/-- The push loop of `pfreelist_contig_free`: for `i = 0 .. objects-1`
push the node at `address + i*object_size` onto the head. -/
def contig_free_push (osize : Nat) :
    Nat → (Nat → Nat) → Nat → Nat → (Nat → Nat) × Nat
  | 0, mem, head, _ => (mem, head)
  | n + 1, mem, head, addr =>
    contig_free_push osize n (fun a => if a = addr then head else mem a) addr
      (addr + osize)

/-- `pfreelist_contig_free`: reject `NULL` or out-of-region addresses,
then push `objects` consecutive nodes and add `objects` to
`free_objects`. -/
def pfreelist_contig_free (mem : Nat → Nat) (meta : PFreelistMeta)
    (address objects : Nat) : Option Nat × (Nat → Nat) × PFreelistMeta :=
  if address = 0 then (none, mem, meta)
  else if ¬ ADDRESS_IN_META address meta then (none, mem, meta)
  else
    let (mem', head') := contig_free_push meta.object_size objects mem meta.head address
    (some address, mem',
      { meta with head := head', free_objects := u64add meta.free_objects objects })

/-- The node-threading loop of `init_pfreelist`:
`for (; _base < _ceil; _base += _object_size) { current = _base;
*current = _base + _object_size; }`; returns the memory and the last
`current` (0 when the loop never ran). -/
def init_thread_loop (osize : Nat) :
    Nat → (Nat → Nat) → Nat → Nat → Nat → (Nat → Nat) × Nat
  | 0, mem, cur, _, _ => (mem, cur)
  | fuel + 1, mem, cur, b, c =>
    if b < c then
      init_thread_loop osize fuel (fun a => if a = b then b + osize else mem a) b
        (b + osize) c
    else (mem, cur)

/-- `init_pfreelist(base, ceil, object_size)` from `pfreelist.c`.
`metaSize` stands for the compile-time `sizeof(struct
ARC_PFreelistMeta)` (40 bytes of fields plus the spinlock, whose size
is outside this repository); it is kept as a parameter.  Reserves
`sizeof/object_size + 1` objects for the header, threads the nodes,
null-terminates, and stores
`free_objects = (_ceil-_base)/object_size - objects + 1` computed on
the already-adjusted `_base`/`_ceil` (in `uint64_t` arithmetic). -/
def init_pfreelist (mem : Nat → Nat) (base ceil osize metaSize : Nat) :
    Option ((Nat → Nat) × PFreelistMeta) :=
  if base > ceil ∨ osize = 0 then none
  else if ceil - base < osize + metaSize then none
  else
    let objects := metaSize / osize + 1
    let base' := base + objects * osize
    let ceil' := ceil - osize
    let fuel := (ceil' - base') / osize + 2
    let (mem', last) := init_thread_loop osize fuel mem 0 base' ceil'
    let mem'' := fun a => if a = last then 0 else mem' a
    some (mem'',
      { head := base', base := base', ceil := ceil', object_size := osize,
        free_objects := u64add (u64sub (u64sub ceil' base' / osize) objects) 1 })

/-- Length of the null-terminated chain threaded through memory,
starting at `addr` (fuel-bounded chase). -/
def chainLen (mem : Nat → Nat) : Nat → Nat → Nat
  | 0, _ => 0
  | fuel + 1, addr => if addr = 0 then 0 else 1 + chainLen mem fuel (mem addr)

/-- The local variables of `pfreelist_contig_alloc` threaded through
its main loop: the shared region memory, the real meta, the local
`to_free` meta (which shares the region's bounds and memory), and the
C locals. -/
structure ContigState where
  mem : Nat → Nat
  meta : PFreelistMeta
  to_free : PFreelistMeta
  object_count : Nat
  fails : Nat
  last_allocation : Nat
  base : Nat
  bottom_allocation : Nat
  allocation : Nat

/-- The main loop of `pfreelist_contig_alloc`
(`while (object_count < objects)`): allocate one object, record the
first allocation in `to_free.head`/`bottom_allocation`/`base`, restart
the run (freeing it into the local `to_free` list via
`pfreelist_contig_free`) when two successive allocations are not
exactly `object_size` apart, and break after 16 restarts. -/
def contig_loop (objects : Nat) : Nat → ContigState → ContigState
  | 0, s => s
  | fuel + 1, s =>
    if s.object_count < objects then
      let (a, mem1, meta1) := pfreelist_alloc s.mem s.meta
      let allocation := a.getD 0
      let s := { s with mem := mem1, meta := meta1, allocation := allocation }
      let s :=
        if s.to_free.head = 0 then
          { s with to_free := { s.to_free with head := allocation },
                   bottom_allocation := allocation, base := allocation }
        else s
      let s :=
        if s.last_allocation ≠ 0 ∧
            ((s.last_allocation : Int) - (allocation : Int)).natAbs ≠
              s.meta.object_size then
          let (_, mem2, tf2) :=
            pfreelist_contig_free s.mem s.to_free s.base (s.object_count + 1)
          { s with mem := mem2, to_free := tf2, base := allocation,
                   fails := s.fails + 1, object_count := 0, last_allocation := 0 }
        else s
      if s.fails ≥ 16 then s
      else
        contig_loop objects fuel
          { s with last_allocation := s.allocation,
                   object_count := s.object_count + 1 }
    else s

/-- The cleanup loop of `pfreelist_contig_alloc`: starting from
`bottom_allocation`, follow the links written into `to_free` and free
each node back into the real list until a node whose link equals
`bottom_allocation` is reached. -/
def contig_cleanup : Nat → Nat → ContigState → ContigState
  | 0, _, s => s
  | fuel + 1, current, s =>
    if s.mem current ≠ s.bottom_allocation then
      let next := s.mem current
      let (_, mem', meta') := pfreelist_free s.mem s.meta current
      contig_cleanup fuel next { s with mem := mem', meta := meta' }
    else s

/-- `pfreelist_contig_alloc(meta, objects)` from `pfreelist.c`
(single-region chain: the entry walk rejects the meta when
`free_objects < objects`).  After the main loop, `objects` is
subtracted from `free_objects` (wrapping); with no restarts the best
base is returned directly, otherwise the partial runs recorded in
`to_free` are walked.  Returns `min(base, allocation)` (`0` = `NULL`
only when the entry walk fails). -/
def pfreelist_contig_alloc (mem : Nat → Nat) (meta : PFreelistMeta)
    (objects fuel : Nat) : Nat × (Nat → Nat) × PFreelistMeta :=
  if meta.free_objects < objects then (0, mem, meta)
  else
    let tf : PFreelistMeta :=
      { head := 0, base := meta.base, ceil := meta.ceil,
        object_size := meta.object_size, free_objects := 0 }
    let s0 : ContigState :=
      { mem := mem, meta := meta, to_free := tf, object_count := 0, fails := 0,
        last_allocation := 0, base := 0, bottom_allocation := 0, allocation := 0 }
    let s := contig_loop objects fuel s0
    let s := { s with meta :=
      { s.meta with free_objects := u64sub s.meta.free_objects objects } }
    if s.fails = 0 then (min s.base s.allocation, s.mem, s.meta)
    else
      let s := contig_cleanup fuel s.bottom_allocation s
      (min s.base s.allocation, s.mem, s.meta)

/-- A freelist region `[4096, 4640]` of object size 16 whose free
chain visits 17 nodes that are each 32 bytes apart (the chain order a
sequence of frees left behind): every two successive allocations are
non-adjacent, so every `contig_alloc` run restarts. -/
def scatteredMem : Nat → Nat :=
  fun a => if 4096 ≤ a ∧ a < 4608 ∧ (a - 4096) % 32 = 0 then a + 32 else 0

/-- The freelist header for `scatteredMem`. -/
def scatteredMeta : PFreelistMeta :=
  { head := 4096, base := 4096, ceil := 4640, object_size := 16,
    free_objects := 17 }

/-- The loop-entry state of `pfreelist_contig_alloc` on the scattered
freelist (locals zeroed, `to_free` copying the region bounds). -/
def scatteredInit : ContigState :=
  { mem := scatteredMem, meta := scatteredMeta,
    to_free := { head := 0, base := 4096, ceil := 4640, object_size := 16,
                 free_objects := 0 },
    object_count := 0, fails := 0, last_allocation := 0, base := 0,
    bottom_allocation := 0, allocation := 0 }

/-! ## Virtual buddy (`src/c/algo/vbuddy.c`)

`struct vbuddy_node` is a forward-linked chain ordered by address; the
embedding lists the nodes in chain order (`next` pointers become list
structure, which is faithful because nodes only link forward and
`merge` only unlinks `base->next`). -/

/-- `struct vbuddy_node`: attributes bit 0 is the allocated flag. -/
structure VBuddyNode where
  base : Nat
  size : Nat
  allocated : Bool
  deriving DecidableEq, Repr

/-- `merge(meta, base)` from `vbuddy.c`: abort unless the node is
free, has a next, the next is free, and the sizes agree; then double
the node's size and unlink the next. -/
def vbuddy_merge (node : VBuddyNode) (rest : List VBuddyNode) :
    VBuddyNode × List VBuddyNode :=
  if node.allocated then (node, rest)
  else
    match rest with
    | [] => (node, [])
    | next :: rest2 =>
      if next.allocated ∨ node.size ≠ next.size then (node, next :: rest2)
      else ({ node with size := node.size * 2 }, rest2)

/-- `vbuddy_free` from `vbuddy.c`: find the node whose `base` equals
the address; return 0 when absent or already free; otherwise record
its size, clear the allocated bit, attempt one merge with the
successor, and return the recorded size. -/
def vbuddy_free : List VBuddyNode → Nat → Nat × List VBuddyNode
  | [], _ => (0, [])
  | n :: rest, addr =>
    if n.base = addr then
      if n.allocated then
        (n.size,
          (vbuddy_merge { n with allocated := false } rest).1 ::
            (vbuddy_merge { n with allocated := false } rest).2)
      else (0, n :: rest)
    else
      ((vbuddy_free rest addr).1, n :: (vbuddy_free rest addr).2)

/-! ## SLAB allocator (`src/c/algo/pslab.c`)

`pslab_free` zeroes whole size classes, so this section views the
region memory at byte granularity: `mem a` is the byte stored at
address `a`.  The eight `lists[i]`/`list_sizes[i]` slots of
`struct ARC_PSlabMeta` are embedded as a list of
`(freelist header, size class)` pairs scanned in index order. -/

/-- `memset(address, 0, len)` on byte memory. -/
def memset0 (mem : Nat → Nat) (address len : Nat) : Nat → Nat :=
  fun a => if address ≤ a ∧ a < address + len then 0 else mem a

/-- Store the 8-byte little-endian word `v` at `address` (the in-band
`next` pointer written by a freelist push). -/
def storeWord (mem : Nat → Nat) (address v : Nat) : Nat → Nat :=
  fun a =>
    if address ≤ a ∧ a < address + 8 then v / 256 ^ (a - address) % 256 else mem a

/-- The byte-level view of `pfreelist_free` as invoked by
`pslab_free`: same guards as `pfreelist_free`, with the node's `next`
word written byte by byte. -/
def pfreelist_free_bytes (mem : Nat → Nat) (meta : PFreelistMeta)
    (address : Nat) : Option Nat × (Nat → Nat) × PFreelistMeta :=
  if address = 0 then (none, mem, meta)
  else if ¬ ADDRESS_IN_META address meta then (none, mem, meta)
  else (some address, storeWord mem address meta.head,
    { meta with head := address, free_objects := u64add meta.free_objects 1 })

/-- The scan of `pslab_free` over the eight slots: the first slot
whose `[base, ceil]` contains the address wins; its whole size class
is zeroed (`memset(address, 0, meta->list_sizes[i])`) and the slot is
pushed back onto that freelist. -/
def pslab_free_scan (mem : Nat → Nat) (address : Nat) :
    List (PFreelistMeta × Nat) →
      Option Nat × (Nat → Nat) × List (PFreelistMeta × Nat)
  | [] => (none, mem, [])
  | (fl, size) :: rest =>
    if fl.base ≤ address ∧ address ≤ fl.ceil then
      ((pfreelist_free_bytes (memset0 mem address size) fl address).1,
       (pfreelist_free_bytes (memset0 mem address size) fl address).2.1,
       ((pfreelist_free_bytes (memset0 mem address size) fl address).2.2, size)
         :: rest)
    else
      ((pslab_free_scan mem address rest).1,
       (pslab_free_scan mem address rest).2.1,
       (fl, size) :: (pslab_free_scan mem address rest).2.2)

/-- `pslab_free` from `src/c/algo/pslab.c` (the return is `NULL` when
no slot's range contains the address). -/
def pslab_free (mem : Nat → Nat) (lists : List (PFreelistMeta × Nat))
    (address : Nat) : Option Nat × (Nat → Nat) × List (PFreelistMeta × Nat) :=
  pslab_free_scan mem address lists

/-! ## Physical buddy allocator (`src/c/algo/pbuddy.c`)

Single-region sequential embedding (claim C1's premise): the
`ARC_PBuddy` list holds one `ARC_PBuddyMeta` created by `init_pbuddy`,
whose `exp`/`min_exp` agree with the list's, and whose `free_objects`
stays 1 (only `init_pbuddy` ever writes it), so the meta-selection
loop of `pbuddy_alloc` always picks it.  The node memory is modelled
per node base address by three maps (`canary_low`, `next`,
`canary_high` — the fields of `struct ARC_PBuddyNode`); blocks are at
least `2^min_exp` apart so node headers never overlap.  Fresh memory
reads as zero (never-stamped canaries do not match).  The sequential
semantics of `ARC_ATOMIC_XCHG(dst, src, out)` is `*out = *dst; *dst =
*src`, and with no concurrent writers the CAS-retry loops of
`pbuddy_acquire` take their first iteration.  Exponent arithmetic uses
`Int` (the C `int` fields); `1 << e` becomes `2 ^ e.toNat`. -/

def ARC_PBUDDY_CANARY_LOW : Nat := 0xAFAF1010

def ARC_PBUDDY_CANARY_HIGH : Nat := 0xCD01EF90

/-- Pointwise function update (for the region maps). -/
def upd {α β : Type} [DecidableEq α] (f : α → β) (k : α) (v : β) : α → β :=
  fun a => if a = k then v else f a

/-- The single-region state: the node memory, the `node_metas` table,
the per-exponent-index free heads, and the meta/list fields. -/
structure PBuddyState where
  canary_low : Nat → Nat
  next : Nat → Nat
  canary_high : Nat → Nat
  node_metas : Nat → Int
  free : Int → Nat
  base : Nat
  free_objects : Nat
  exp : Int
  min_exp : Int

/-- `pbuddy_ptr2idx`: `ptr -= base; ptr >>= min_exp; ptr /=
sizeof(struct ARC_PBuddyNodeMeta)` — the struct is 8 packed bytes, so
the block number is divided by 8 again; the result is truncated to
`idx_t` (`uint32_t`).  (`META_NULL` for a null pointer; callers only
pass non-null nodes.) -/
def pbuddy_ptr2idx (st : PBuddyState) (ptr : Nat) : Nat :=
  if ptr = 0 then 2 ^ 32 - 1
  else (((ptr - st.base) >>> st.min_exp.toNat) / 8) % 2 ^ 32

/-- Both canary words of the node at `ptr` match. -/
def pbuddyCanariesOk (st : PBuddyState) (ptr : Nat) : Bool :=
  st.canary_high ptr == ARC_PBUDDY_CANARY_HIGH &&
    st.canary_low ptr == ARC_PBUDDY_CANARY_LOW

/-- Stamp valid canaries on the node at `ptr`. -/
def pbuddyStamp (st : PBuddyState) (ptr : Nat) : PBuddyState :=
  { st with canary_low := upd st.canary_low ptr ARC_PBUDDY_CANARY_LOW,
            canary_high := upd st.canary_high ptr ARC_PBUDDY_CANARY_HIGH }

/-- The splice walk of `pbuddy_merge`: follow `next` from the list
head until the target or `NULL`, returning `(current, last)`. -/
def pbuddy_find (st : PBuddyState) (target : Nat) :
    Nat → Nat → Nat → Nat × Nat
  | 0, current, last => (current, last)
  | fuel + 1, current, last =>
    if current ≠ 0 ∧ current ≠ target then
      pbuddy_find st target fuel (st.next current) current
    else (current, last)

/-- `pbuddy_merge(meta, node)` from `pbuddy.c:92-140`: stop at the top
exponent; require matching canaries on the buddy; blank the secondary
node's canaries (before the splice walk, so the blanking persists even
when the walk fails); splice the buddy out of `free[exp_idx]`;
increment the *argument* node's `node_metas` entry; return the
primary. -/
def pbuddy_merge (fuel : Nat) (st : PBuddyState) (node : Nat) :
    Option Nat × PBuddyState :=
  let idx := pbuddy_ptr2idx st node
  let exp := st.node_metas idx
  if exp ≥ st.exp then (none, st)
  else
    let exp_idx := exp - st.min_exp
    let buddy := node ^^^ 2 ^ exp.toNat
    if ¬ (pbuddyCanariesOk st buddy = true) then (none, st)
    else
      let primary := min node buddy
      let secondary := max node buddy
      let st := { st with canary_high := upd st.canary_high secondary 0,
                          canary_low := upd st.canary_low secondary 0 }
      let (current, last) := pbuddy_find st buddy fuel (st.free exp_idx) 0
      if current = 0 then (none, st)
      else
        let st :=
          if last ≠ 0 then { st with next := upd st.next last (st.next current) }
          else { st with free := upd st.free exp_idx (st.next current) }
        (some primary,
          { st with node_metas := upd st.node_metas idx (exp + 1) })

/-- The merge loop of `pbuddy_release`: `while ((t1 = merge(t)) !=
NULL) t = t1`. -/
def pbuddy_release_loop (st : PBuddyState) (t : Nat) :
    Nat → Nat × PBuddyState
  | 0 => (t, st)
  | fuel + 1 =>
    match pbuddy_merge fuel st t with
    | (some t1, st') => pbuddy_release_loop st' t1 fuel
    | (none, st') => (t, st')

/-- `pbuddy_release(meta, node)` from `pbuddy.c:142-164`: record the
size from the node's `node_metas` entry, merge upward, re-read the
exponent from the *original* node's entry, stamp the original node's
canaries, and push the merged block `t` onto that exponent's list.
Returns the recorded size. -/
def pbuddy_release (fuel : Nat) (st : PBuddyState) (node : Nat) :
    Nat × PBuddyState :=
  let idx := pbuddy_ptr2idx st node
  let size := 2 ^ (st.node_metas idx).toNat
  let t := (pbuddy_release_loop st node fuel).1
  let st1 := (pbuddy_release_loop st node fuel).2
  let exp := st1.node_metas idx
  let exp_idx := exp - st1.min_exp
  let st2 := pbuddyStamp st1 node
  (size, { st2 with next := upd st2.next t (st2.free exp_idx),
                    free := upd st2.free exp_idx t })

/-- `pbuddy_split(meta, node)` from `pbuddy.c:166-191`: refuse at the
minimum exponent; decrement the node's `node_metas` entry; stamp the
buddy's canaries; set the buddy's `node_metas` entry; push the buddy
onto the lower exponent's list.  `none` = split failed. -/
def pbuddy_split (st : PBuddyState) (node : Nat) : Option PBuddyState :=
  if st.node_metas (pbuddy_ptr2idx st node) ≤ st.min_exp then none
  else
    let idx := pbuddy_ptr2idx st node
    let exp := st.node_metas idx
    let exp' := exp - 1
    let st := { st with node_metas := upd st.node_metas idx exp' }
    let buddy := node ^^^ 2 ^ exp'.toNat
    let st := pbuddyStamp st buddy
    let buddy_idx := pbuddy_ptr2idx st buddy
    let st := { st with node_metas := upd st.node_metas buddy_idx exp' }
    let st := { st with next := upd st.next buddy (st.free (exp' - st.min_exp)),
                        free := upd st.free (exp' - st.min_exp) buddy }
    some st

/-- The upward scan of `pbuddy_acquire`:
`for (; i < (meta->exp - meta->min_exp + 1) && (node = meta->free[i])
== NULL; i++, c++);` — returns `(i, c, node)`. -/
def pbuddy_scan (st : PBuddyState) (bound : Int) :
    Nat → Int → Int → Nat → Int × Int × Nat
  | 0, i, c, node => (i, c, node)
  | fuel + 1, i, c, node =>
    if i < bound then
      let nd := st.free i
      if nd = 0 then pbuddy_scan st bound fuel (i + 1) (c + 1) nd
      else (i, c, nd)
    else (i, c, node)

/-- The split loop of `pbuddy_acquire` (`for (; c > 0; c--)`): on a
failed split the residual node is pushed back onto `free[i]` (the
scan index) and the allocation fails. -/
def pbuddy_split_loop (st : PBuddyState) (node : Nat) (i : Int) :
    Nat → Option Nat × PBuddyState
  | 0 => (some node, st)
  | c + 1 =>
    match pbuddy_split st node with
    | some st' => pbuddy_split_loop st' node i c
    | none =>
      (none, { st with next := upd st.next node (st.free i),
                       free := upd st.free i node })

/-- `pbuddy_acquire(meta, exp)` from `pbuddy.c:193-255`, sequential:
the fast path pops `free[exp_idx]` when its head carries valid
canaries; otherwise scan upward for the first non-empty list, pop its
head, validate its canaries (failed validation does not reinsert — the
TODO in the source), and split `c` times. -/
def pbuddy_acquire (fuel : Nat) (st : PBuddyState) (exp : Int) :
    Option Nat × PBuddyState :=
  let exp_idx := exp - st.min_exp
  let node := st.free exp_idx
  if node ≠ 0 ∧ pbuddyCanariesOk st node = true then
    (some node, { st with free := upd st.free exp_idx (st.next node) })
  else
    let bound := st.exp - st.min_exp + 1
    let (i, c, nd) := pbuddy_scan st bound fuel (exp_idx + 1) 1 node
    if nd = 0 then (none, st)
    else
      let st := { st with free := upd st.free i (st.next nd) }
      if ¬ (pbuddyCanariesOk st nd = true) then (none, st)
      else pbuddy_split_loop st nd i c.toNat

/-- `pbuddy_alloc(list, size)` from `pbuddy.c:257-301`, single-region
sequential: compute the request exponent `ctz(next_pow2(size))`,
reject it outside `[min_exp, exp]`; the meta walk selects the single
region (`free_objects = 1`); on acquire failure the growth path
(`init_pbuddy` on a fresh `pmm_alloc` region) is out of the
single-region model, so the failure is returned. -/
def pbuddy_alloc (fuel : Nat) (st : PBuddyState) (size : Nat) :
    Option Nat × PBuddyState :=
  if (reqExp size : Int) < st.min_exp ∨ (reqExp size : Int) > st.exp then (none, st)
  else pbuddy_acquire fuel st (reqExp size)

/-- `ADDRESS_IN_META(address, meta, exp)` from `pbuddy.c:51` with
`exp = list->exp`: `base <= address && address <= base + (1 << exp)`. -/
def pbuddyInMeta (st : PBuddyState) (address : Nat) : Prop :=
  st.base ≤ address ∧ address ≤ st.base + 2 ^ st.exp.toNat

instance (st : PBuddyState) (address : Nat) :
    Decidable (pbuddyInMeta st address) := by
  unfold pbuddyInMeta; infer_instance

/-- `pbuddy_free(list, address)` from `pbuddy.c:303-323`: reject
`NULL`; find the meta whose range contains the address (the single
region); release.  Returns the freed size (0 = failure). -/
def pbuddy_free (fuel : Nat) (st : PBuddyState) (address : Nat) :
    Nat × PBuddyState :=
  if address = 0 then (0, st)
  else if ¬ pbuddyInMeta st address then (0, st)
  else pbuddy_release fuel st address

/-- `init_pbuddy(list, base, exp, min_exp)` from `pbuddy.c:329-381` on
a fresh list: reject a null base or `exp < min_exp`; zero the
`node_metas` table; stamp the single node at `base` with null `next`;
`node_metas[0] = exp`; `free[exp - min_exp] = base`;
`free_objects = 1`.  Fresh node memory reads as zero. -/
def init_pbuddy (base : Nat) (exp min_exp : Int) : Option PBuddyState :=
  if base = 0 ∨ exp < min_exp then none
  else
    some
      { canary_low := upd (fun _ => 0) base ARC_PBUDDY_CANARY_LOW,
        next := upd (fun _ => 0) base 0,
        canary_high := upd (fun _ => 0) base ARC_PBUDDY_CANARY_HIGH,
        node_metas := upd (fun _ => 0) 0 exp,
        free := upd (fun _ => 0) (exp - min_exp) base,
        base := base, free_objects := 1, exp := exp, min_exp := min_exp }

/-- The contents of a free list as node addresses, chasing the
in-band `next` pointers from a head (fuel-bounded). -/
def pbuddyFreeList (st : PBuddyState) : Nat → Nat → List Nat
  | 0, _ => []
  | fuel + 1, cur =>
    if cur = 0 then [] else cur :: pbuddyFreeList st fuel (st.next cur)

/-- The single 1 MiB buddy region of scenario S2: `init_pbuddy(base =
0x100000, exp = 20, min_exp = 12)`. -/
def pbuddyRegion : PBuddyState := (init_pbuddy 1048576 20 12).get (by decide)

/-- The observables of the round-trip sequence `a1 = alloc(4096)`,
`a2 = alloc(8192)`, `free(a2)`, `free(a1)` on `pbuddyRegion`: the two
allocation results, the two freed sizes, the final `free[8]` and
`free[0]` lists, and the initial `free[8]` list. -/
def pbuddyRoundTrip :
    Option Nat × Option Nat × Nat × Nat × List Nat × List Nat × List Nat :=
  let r1 := pbuddy_alloc 64 pbuddyRegion 4096
  let r2 := pbuddy_alloc 64 r1.2 8192
  let f2 := pbuddy_free 64 r2.2 (r2.1.getD 0)
  let f1 := pbuddy_free 64 f2.2 (r1.1.getD 0)
  (r1.1, r2.1, f2.1, f1.1,
   pbuddyFreeList f1.2 32 (f1.2.free 8),
   pbuddyFreeList f1.2 32 (f1.2.free 0),
   pbuddyFreeList pbuddyRegion 32 (pbuddyRegion.free 8))

theorem pwatermark_walk_none (n : Nat) (hn : n ≠ 0) (metas : List PWatermarkMeta)
    (h : ∀ m' ∈ metas, ¬ pwFits n m') : pwatermark_walk n metas = (none, metas) := by
  induction metas with
  | nil => rfl
  | cons m rest ih =>
    have hm := h m (List.mem_cons_self m rest)
    have hc : m.base + m.off + n > m.ceil := by unfold pwFits at hm; omega
    have hr := ih (fun m' hm' => h m' (List.mem_cons_of_mem _ hm'))
    simp [pwatermark_walk, hc, hr]

theorem pwatermark_walk_found (n : Nat) (hn : n ≠ 0) (pre post : List PWatermarkMeta)
    (m : PWatermarkMeta) (hpre : ∀ m' ∈ pre, ¬ pwFits n m') (hm : pwFits n m) :
    pwatermark_walk n (pre ++ m :: post) =
      (some (m.base + m.off), pre ++ { m with off := m.off + n } :: post) := by
  induction pre with
  | nil =>
    have hc : ¬ (m.base + m.off + n > m.ceil) := (pwFits_iff_cond n m hn).mp hm
    simp [pwatermark_walk, hc]
  | cons p rest ih =>
    have hp := hpre p (List.mem_cons_self p rest)
    have hc : p.base + p.off + n > p.ceil := by unfold pwFits at hp; omega
    have hr := ih (fun m' hm' => hpre m' (List.mem_cons_of_mem _ hm'))
    simp [pwatermark_walk, hc, hr]

theorem vbuddy_merge_keeps_head (n : VBuddyNode) (rest : List VBuddyNode) :
    (vbuddy_merge n rest).1.base = n.base ∧
      (vbuddy_merge n rest).1.allocated = n.allocated := by
  unfold vbuddy_merge
  by_cases h : n.allocated
  · simp [h]
  · cases rest with
    | nil => simp [h]
    | cons m r2 =>
      by_cases h2 : m.allocated ∨ n.size ≠ m.size
      · simp [h, h2]
      · simp [h, h2]

theorem vbuddy_free_twice (l : List VBuddyNode) (addr : Nat)
    (h : (vbuddy_free l addr).1 ≠ 0) :
    (vbuddy_free (vbuddy_free l addr).2 addr).1 = 0 := by
  induction l with
  | nil => simp [vbuddy_free] at h
  | cons n rest ih =>
    by_cases hb : n.base = addr
    · subst hb
      by_cases ha : n.allocated
      · have hm := vbuddy_merge_keeps_head { n with allocated := false } rest
        simp [vbuddy_free, ha, hm.1, hm.2]
      · simp [vbuddy_free, ha] at h
    · simp only [vbuddy_free, if_neg hb] at h ⊢
      simpa [vbuddy_free, hb] using ih h

theorem pmm_free_scan_unclaimed (bfree ffree : Nat → Nat → Nat) (address : Nat)
    (biases : List Nat) (h : ∀ b ∈ biases, ¬ pmmClaims bfree ffree address b) :
    pmm_free_scan bfree ffree address biases = PAGE_SIZE := by
  induction biases with
  | nil => rfl
  | cons b rest ih =>
    have hb := h b (List.mem_cons_self b rest)
    unfold pmmClaims at hb
    push_neg at hb
    have hr := ih (fun b' hb' => h b' (List.mem_cons_of_mem _ hb'))
    simp [pmm_free_scan, hb.2, hr, Nat.le_zero.mp hb.1]

theorem pmm_free_scan_found (bfree ffree : Nat → Nat → Nat) (address : Nat)
    (pre post : List Nat) (b : Nat)
    (hpre : ∀ b' ∈ pre, ¬ pmmClaims bfree ffree address b') :
    (0 < bfree b address →
      pmm_free_scan bfree ffree address (pre ++ b :: post) = bfree b address)
    ∧ (bfree b address = 0 → ffree b address = address →
      pmm_free_scan bfree ffree address (pre ++ b :: post) = 2 ^ b) := by
  induction pre with
  | nil =>
    constructor
    · intro hb
      simp [pmm_free_scan, hb]
    · intro hb hf
      simp [pmm_free_scan, hb, hf]
  | cons p rest ih =>
    have hp := hpre p (List.mem_cons_self p rest)
    unfold pmmClaims at hp
    push_neg at hp
    have hz := Nat.le_zero.mp hp.1
    have hr := ih (fun b' hb' => hpre b' (List.mem_cons_of_mem _ hb'))
    constructor
    · intro hb
      simpa [pmm_free_scan, hz, hp.2] using hr.1 hb
    · intro hb hf
      simpa [pmm_free_scan, hz, hp.2] using hr.2 hb hf

end Kmm

/-- C3: `calloc(16, 1000)` routes to the VMM path (because
`16*1000 > PAGE_SIZE/2`) but forwards a request of only
`max(PAGE_SIZE, 16) = 4096` bytes, whereas `alloc(16*1000)` forwards
`16000` bytes; so the size handed to the underlying allocator is not
derived from the product `sz*cnt`, contradicting the claim. -/
theorem calloc_drops_count :
    Kmm.calloc 16 1000 = .vmm 4096 ∧
    Kmm.alloc (16 * 1000) = .vmm 16000 ∧
    Kmm.calloc 16 1000 ≠ Kmm.alloc (16 * 1000) := by
  refine ⟨rfl, rfl, ?_⟩
  decide

/-- C9: for every non-zero size `n`, `pwatermark_alloc` walks the
region chain in order, returns from the first region with
`off + n ≤ ceil - base` the old top `base + off` and bumps only that
region's `off` by `n`; when no region fits it returns null and leaves
every region unchanged. -/
theorem pwatermark_alloc_correct (n : Nat) (hn : n ≠ 0) :
    (∀ pre post : List Kmm.PWatermarkMeta, ∀ m : Kmm.PWatermarkMeta,
      (∀ m' ∈ pre, ¬ Kmm.pwFits n m') → Kmm.pwFits n m →
      Kmm.pwatermark_alloc (pre ++ m :: post) n =
        (some (m.base + m.off), pre ++ { m with off := m.off + n } :: post))
    ∧ (∀ metas : List Kmm.PWatermarkMeta, (∀ m' ∈ metas, ¬ Kmm.pwFits n m') →
      Kmm.pwatermark_alloc metas n = (none, metas)) := by
  constructor
  · intro pre post m hpre hm
    unfold Kmm.pwatermark_alloc
    rw [if_neg hn]
    exact Kmm.pwatermark_walk_found n hn pre post m hpre hm
  · intro metas h
    unfold Kmm.pwatermark_alloc
    rw [if_neg hn]
    exact Kmm.pwatermark_walk_none n hn metas h

/-- Witness for C9: a two-region chain where the first region is full;
allocating 4 bytes serves from the second region at its old top 10. -/
theorem pwatermark_alloc_correct_witness :
    Kmm.pwatermark_alloc [⟨100, 100, 0⟩, ⟨0, 64, 10⟩] 4
      = (some 10, [⟨100, 100, 0⟩, ⟨0, 64, 14⟩]) :=
  (pwatermark_alloc_correct 4 (by decide)).1 [⟨100, 100, 0⟩] [] ⟨0, 64, 10⟩
    (by decide) (by decide)

/-- C8: `pmm_internal_free` scans the bias table in order; at each
bias exponent `b` the buddy is tried first (its reported size is
returned when positive) and the freelist second (`1 << b` is returned
when it hands the address back); when no bias claims the address it is
treated as a fast page and `PAGE_SIZE` is returned; freeing the null
address returns 0. -/
theorem pmm_internal_free_correct (bfree ffree : Nat → Nat → Nat) (address : Nat) :
    (∀ biases : List Nat, Kmm.pmm_internal_free bfree ffree biases 0 = 0)
    ∧ (address ≠ 0 → ∀ pre post : List Nat, ∀ b : Nat,
        (∀ b' ∈ pre, ¬ Kmm.pmmClaims bfree ffree address b') →
        (0 < bfree b address →
          Kmm.pmm_internal_free bfree ffree (pre ++ b :: post) address
            = bfree b address)
        ∧ (bfree b address = 0 → ffree b address = address →
          Kmm.pmm_internal_free bfree ffree (pre ++ b :: post) address = 2 ^ b))
    ∧ (address ≠ 0 → ∀ biases : List Nat,
        (∀ b ∈ biases, ¬ Kmm.pmmClaims bfree ffree address b) →
        Kmm.pmm_internal_free bfree ffree biases address = Kmm.PAGE_SIZE) := by
  refine ⟨fun biases => rfl, fun ha pre post b hpre => ?_, fun ha biases h => ?_⟩
  · unfold Kmm.pmm_internal_free
    rw [if_neg ha]
    exact Kmm.pmm_free_scan_found bfree ffree address pre post b hpre
  · unfold Kmm.pmm_internal_free
    rw [if_neg ha]
    exact Kmm.pmm_free_scan_unclaimed bfree ffree address biases h

/-- Witness for C8: with a buddy that claims address 77 at bias 21
with size 99 and a freelist claiming it at bias 12, the scan over
biases `[21, 12]` returns the buddy's size 99. -/
theorem pmm_internal_free_correct_witness :
    Kmm.pmm_internal_free (fun b a => if b = 21 ∧ a = 77 then 99 else 0)
      (fun b a => if b = 12 then a else 0) [21, 12] 77 = 99 :=
  ((pmm_internal_free_correct (fun b a => if b = 21 ∧ a = 77 then 99 else 0)
      (fun b a => if b = 12 then a else 0) 77).2.1 (by decide) [] [12] 21
      (by intro b' hb'; simp at hb')).1 (by decide)

/-- C2: at `init_pfreelist(base=4096, ceil=5120, object_size=16)`
(with `sizeof(struct ARC_PFreelistMeta) = 48`) the stored
`free_objects` is 56 while init threads a null-terminated chain of 59
nodes from `head`: line 274 subtracts the header reserve `objects`
again even though `_base` was already advanced past the header, and
floors where the threading loop ceils. -/
theorem init_pfreelist_count_mismatch :
    ((Kmm.init_pfreelist (fun _ => 0) 4096 5120 16 48).map (fun p =>
        (p.2.free_objects, Kmm.chainLen p.1 200 p.2.head))) = some (56, 59)
      ∧ (56 : Nat) ≠ 59 := by
  exact ⟨by decide, by decide⟩

/-- C6 counterexample: on the scattered freelist every successive pair
of allocations is 32 ≠ 16 bytes apart, so `pfreelist_contig_alloc(2)`
restarts its run 16 times — and then returns the non-null address 4608
instead of failing, refuting the claim. -/
theorem pfreelist_contig_alloc_not_failing :
    (Kmm.pfreelist_contig_alloc Kmm.scatteredMem Kmm.scatteredMeta 2 100).1 = 4608
      ∧ (4608 : Nat) ≠ 0 := by
  exact ⟨by decide, by decide⟩

/-- C6 amended: when the contiguous run restarts 16 times the main
loop breaks with fail counter 16 and the call returns
`min(base, allocation)` — the base of the last partial run, a non-null
address — rather than failing. -/
theorem pfreelist_contig_alloc_partial_base :
    (Kmm.contig_loop 2 100 Kmm.scatteredInit).fails = 16
    ∧ (Kmm.contig_loop 2 100 Kmm.scatteredInit).base = 4608
    ∧ (Kmm.contig_loop 2 100 Kmm.scatteredInit).allocation = 4608
    ∧ (Kmm.pfreelist_contig_alloc Kmm.scatteredMem Kmm.scatteredMeta 2 100).1
        = min (Kmm.contig_loop 2 100 Kmm.scatteredInit).base
            (Kmm.contig_loop 2 100 Kmm.scatteredInit).allocation := by
  refine ⟨by decide, by decide, by decide, by decide⟩

/-- C7 counterexample: initialise a freelist region, allocate the node
4160, free it, and free it again with no intervening allocation: the
second `pfreelist_free` also succeeds and returns the address (it does
not return 0/failure as the claim states). -/
theorem pfreelist_double_free_succeeds :
    ((Kmm.init_pfreelist (fun _ => 0) 4096 5120 64 48).map (fun p =>
       let a := Kmm.pfreelist_alloc p.1 p.2
       let q := a.1.getD 0
       let f1 := Kmm.pfreelist_free a.2.1 a.2.2 q
       let f2 := Kmm.pfreelist_free f1.2.1 f1.2.2 q
       (q, f1.1, f2.1))) = some (4160, some 4160, some 4160) := by
  decide

/-- C7 amended: the virtual buddy enforces the claim — after a
successful `vbuddy_free` (nonzero return) an immediately repeated
`vbuddy_free` of the same address returns 0 — but the freelist does
not: a repeated `pfreelist_free(p)` of an in-region `p` succeeds again
and returns `p` (self-linking the node). -/
theorem free_exactly_once :
    (∀ (l : List Kmm.VBuddyNode) (addr : Nat),
      (Kmm.vbuddy_free l addr).1 ≠ 0 →
      (Kmm.vbuddy_free (Kmm.vbuddy_free l addr).2 addr).1 = 0)
    ∧ (∀ (mem : Nat → Nat) (meta : Kmm.PFreelistMeta) (p : Nat), p ≠ 0 →
        Kmm.ADDRESS_IN_META p meta →
        (Kmm.pfreelist_free mem meta p).1 = some p ∧
        (Kmm.pfreelist_free (Kmm.pfreelist_free mem meta p).2.1
          (Kmm.pfreelist_free mem meta p).2.2 p).1 = some p) := by
  constructor
  · exact Kmm.vbuddy_free_twice
  · intro mem meta p hp hin
    constructor
    · simp [Kmm.pfreelist_free, hp, hin]
    · have hin' : Kmm.ADDRESS_IN_META p
        { meta with head := p, free_objects := Kmm.u64add meta.free_objects 1 } := hin
      simp [Kmm.pfreelist_free, hp, hin, hin']

/-- Witness for C7 (amended): a one-node virtual buddy where address 0
is allocated — the second free returns 0; and a concrete freelist
region where the repeated free of node 4160 returns 4160 again. -/
theorem free_exactly_once_witness :
    (Kmm.vbuddy_free (Kmm.vbuddy_free [⟨0, 4096, true⟩] 0).2 0).1 = 0
    ∧ (Kmm.pfreelist_free (fun _ => 0) ⟨4224, 4160, 5056, 64, 14⟩ 4160).1
        = some 4160 :=
  ⟨free_exactly_once.1 [⟨0, 4096, true⟩] 0 (by decide),
   (free_exactly_once.2 (fun _ => 0) ⟨4224, 4160, 5056, 64, 14⟩ 4160 (by decide)
     (by constructor <;> decide)).1⟩

/-- C10: when the freed address lies in the range of one of the SLAB's
slots (and in no earlier slot), `pslab_free` zeroes the slot's entire
size class before pushing it back onto that slot's freelist: the free
succeeds, every byte of the slot beyond the first word is zero, the
first word holds the previous freelist head (reused as the intrusive
next pointer), and only that slot's header changes. -/
theorem pslab_free_zeroes_slot (mem : Nat → Nat)
    (pre post : List (Kmm.PFreelistMeta × Nat)) (fl : Kmm.PFreelistMeta)
    (size address : Nat) (haddr : address ≠ 0)
    (hpre : ∀ p ∈ pre, ¬ (p.1.base ≤ address ∧ address ≤ p.1.ceil))
    (hin : fl.base ≤ address ∧ address ≤ fl.ceil) :
    (Kmm.pslab_free mem (pre ++ (fl, size) :: post) address).1 = some address
    ∧ (∀ j, 8 ≤ j → j < size →
        (Kmm.pslab_free mem (pre ++ (fl, size) :: post) address).2.1 (address + j) = 0)
    ∧ (∀ j, j < 8 →
        (Kmm.pslab_free mem (pre ++ (fl, size) :: post) address).2.1 (address + j)
          = fl.head / 256 ^ j % 256)
    ∧ (Kmm.pslab_free mem (pre ++ (fl, size) :: post) address).2.2
        = pre ++
          ({ fl with head := address, free_objects := Kmm.u64add fl.free_objects 1 },
            size) :: post := by
  induction pre with
  | nil =>
    have hmeta : Kmm.ADDRESS_IN_META address fl := hin
    rw [List.nil_append]
    simp only [Kmm.pslab_free, Kmm.pslab_free_scan]
    rw [if_pos hin]
    unfold Kmm.pfreelist_free_bytes
    rw [if_neg haddr, if_neg (not_not_intro hmeta)]
    refine ⟨rfl, ?_, ?_, rfl⟩
    · intro j h8 hsz
      have h1 : ¬ (address ≤ address + j ∧ address + j < address + 8) := by omega
      have h2 : address ≤ address + j ∧ address + j < address + size :=
        ⟨by omega, by omega⟩
      simp [Kmm.storeWord, Kmm.memset0, h1, h2]
      intro hj8
      exact absurd hj8 (by omega)
    · intro j hj
      have h1 : address ≤ address + j ∧ address + j < address + 8 :=
        ⟨by omega, by omega⟩
      simp [Kmm.storeWord, h1, Nat.add_sub_cancel_left]
  | cons p pre' ih =>
    obtain ⟨fl0, sz0⟩ := p
    have hp := hpre (fl0, sz0) (List.mem_cons_self _ _)
    have ih' := ih (fun q hq => hpre q (List.mem_cons_of_mem _ hq))
    rw [List.cons_append]
    simp only [Kmm.pslab_free, Kmm.pslab_free_scan]
    rw [if_neg hp]
    simp only [Kmm.pslab_free] at ih'
    exact ⟨ih'.1, ih'.2.1, ih'.2.2.1, by rw [List.cons_append, ih'.2.2.2]⟩

/-- Witness for C10: freeing address 8192 in a slab whose only slot
covers `[8192, 12288]` with size class 64 over all-5 memory: the free
succeeds, byte 20 of the slot is zeroed, and byte 0 holds the low byte
of the old head 9000 (`9000 % 256 = 40`). -/
theorem pslab_free_zeroes_slot_witness :
    (Kmm.pslab_free (fun _ => 5) [(⟨9000, 8192, 12288, 64, 0⟩, 64)] 8192).1
        = some 8192
    ∧ (Kmm.pslab_free (fun _ => 5) [(⟨9000, 8192, 12288, 64, 0⟩, 64)] 8192).2.1
        (8192 + 20) = 0
    ∧ (Kmm.pslab_free (fun _ => 5) [(⟨9000, 8192, 12288, 64, 0⟩, 64)] 8192).2.1
        (8192 + 0) = 9000 / 256 ^ 0 % 256 :=
  ⟨(pslab_free_zeroes_slot (fun _ => 5) [] [] ⟨9000, 8192, 12288, 64, 0⟩ 64 8192
      (by decide) (by intro p hp; simp at hp) (by constructor <;> decide)).1,
   (pslab_free_zeroes_slot (fun _ => 5) [] [] ⟨9000, 8192, 12288, 64, 0⟩ 64 8192
      (by decide) (by intro p hp; simp at hp) (by constructor <;> decide)).2.1 20
      (by decide) (by decide),
   (pslab_free_zeroes_slot (fun _ => 5) [] [] ⟨9000, 8192, 12288, 64, 0⟩ 64 8192
      (by decide) (by intro p hp; simp at hp) (by constructor <;> decide)).2.2.1 0
      (by decide)⟩

/-- C1: on the freshly initialised 1 MiB region, the sequence
`a1 = alloc(4096)`, `a2 = alloc(8192)`, `free(a2)`, `free(a1)` ends
with no live allocations (both allocations succeed and both frees
return nonzero sizes), yet the free lists do not return to the init
state: `free[20-12]` ends empty (after init it held the region base)
and the 8 KiB block `a2` ends on the 4 KiB list `free[0]`.  The cause
is `pbuddy_ptr2idx` dividing the block number by
`sizeof(struct ARC_PBuddyNodeMeta) = 8` a second time, aliasing the
`node_metas` entries of all blocks below `2^(min_exp+3)`; `free(a2)`
then reads exponent 12 instead of 13 (it also returns size 4096 for
the 8 KiB block) and the final merge chain stops early. -/
theorem pbuddy_roundtrip_broken :
    Kmm.pbuddyRoundTrip
      = (some 1048576, some 1056768, 4096, 4096, [], [1056768], [1048576])
    ∧ ([] : List Nat) ≠ [1048576] := by
  refine ⟨?_, by decide⟩
  rfl

/-- C4 counterexample: the block returned by `pbuddy_alloc(4096)` from
the freshly initialised region still carries *matching* canary words
(the allocator never clears the canaries of a block it hands out), so
the second half of the canary law fails. -/
theorem pbuddy_alloc_keeps_canaries :
    (Kmm.pbuddy_alloc 64 Kmm.pbuddyRegion 4096).1 = some 1048576
    ∧ (Kmm.pbuddy_alloc 64 Kmm.pbuddyRegion 4096).2.canary_low 1048576
        = Kmm.ARC_PBUDDY_CANARY_LOW
    ∧ (Kmm.pbuddy_alloc 64 Kmm.pbuddyRegion 4096).2.canary_high 1048576
        = Kmm.ARC_PBUDDY_CANARY_HIGH := by
  refine ⟨by decide, by decide, by decide⟩

/-- C4 amended: every block is stamped with matching canaries at the
moment it is inserted onto a free list — by `init_pbuddy` for the
initial block, by `pbuddy_split` for the buddy it pushes, and by
`pbuddy_release` for the freed node — while allocation validates but
does not clear the canaries of the block it returns (see the
counterexample). -/
theorem pbuddy_canary_stamping :
    (∀ (base : Nat) (exp min_exp : Int) (st : Kmm.PBuddyState),
      Kmm.init_pbuddy base exp min_exp = some st →
      st.canary_low base = Kmm.ARC_PBUDDY_CANARY_LOW
      ∧ st.canary_high base = Kmm.ARC_PBUDDY_CANARY_HIGH
      ∧ st.free (exp - min_exp) = base)
    ∧ (∀ (st st' : Kmm.PBuddyState) (node : Nat),
      Kmm.pbuddy_split st node = some st' →
      st'.canary_low
          (node ^^^ 2 ^ (st.node_metas (Kmm.pbuddy_ptr2idx st node) - 1).toNat)
        = Kmm.ARC_PBUDDY_CANARY_LOW
      ∧ st'.canary_high
          (node ^^^ 2 ^ (st.node_metas (Kmm.pbuddy_ptr2idx st node) - 1).toNat)
        = Kmm.ARC_PBUDDY_CANARY_HIGH
      ∧ st'.free ((st.node_metas (Kmm.pbuddy_ptr2idx st node) - 1) - st.min_exp)
        = node ^^^ 2 ^ (st.node_metas (Kmm.pbuddy_ptr2idx st node) - 1).toNat)
    ∧ (∀ (fuel : Nat) (st : Kmm.PBuddyState) (node : Nat),
      (Kmm.pbuddy_release fuel st node).2.canary_low node
        = Kmm.ARC_PBUDDY_CANARY_LOW
      ∧ (Kmm.pbuddy_release fuel st node).2.canary_high node
        = Kmm.ARC_PBUDDY_CANARY_HIGH) := by
  refine ⟨?_, ?_, ?_⟩
  · intro base exp min_exp st h
    unfold Kmm.init_pbuddy at h
    split at h
    · exact absurd h (by simp)
    · cases h
      simp [Kmm.upd]
  · intro st st' node h
    unfold Kmm.pbuddy_split at h
    split at h
    · exact absurd h (by simp)
    · cases h
      simp [Kmm.upd, Kmm.pbuddyStamp]
  · intro fuel st node
    constructor
    · simp [Kmm.pbuddy_release, Kmm.pbuddyStamp, Kmm.upd]
    · simp [Kmm.pbuddy_release, Kmm.pbuddyStamp, Kmm.upd]

/-- Witness for C4 (amended): the initial block of the 1 MiB region is
stamped, the buddy pushed by splitting it is stamped, and the node
freed by `pbuddy_release` is stamped. -/
theorem pbuddy_canary_stamping_witness :
    Kmm.pbuddyRegion.canary_low 1048576 = Kmm.ARC_PBUDDY_CANARY_LOW
    ∧ ((Kmm.pbuddy_split Kmm.pbuddyRegion 1048576).get (by decide)).canary_low
        1572864 = Kmm.ARC_PBUDDY_CANARY_LOW
    ∧ (Kmm.pbuddy_release 4 Kmm.pbuddyRegion 1048576).2.canary_high 1048576
        = Kmm.ARC_PBUDDY_CANARY_HIGH :=
  ⟨(pbuddy_canary_stamping.1 1048576 20 12 Kmm.pbuddyRegion
      (Option.some_get _).symm).1,
   (pbuddy_canary_stamping.2.1 Kmm.pbuddyRegion
      ((Kmm.pbuddy_split Kmm.pbuddyRegion 1048576).get (by decide)) 1048576
      (Option.some_get _).symm).1,
   (pbuddy_canary_stamping.2.2 4 Kmm.pbuddyRegion 1048576).2⟩

/-- C5 counterexample: `pbuddy_alloc(8)` on the fresh region fails
(returns null) although the claim's exponent
`max(min_exp, ⌈log2 8⌉) = max(12, 3) = 12` does not exceed
`max_exp = 20` and a free block of exponent 20 is available: the code
computes `ctz(next_pow2(8)) = 3` with no lower clamp and rejects
`3 < min_exp` as improper parameters. -/
theorem pbuddy_alloc_rejects_small :
    (Kmm.pbuddy_alloc 64 Kmm.pbuddyRegion 8).1 = none
    ∧ Kmm.reqExp 8 = 3
    ∧ max 12 (Nat.clog 2 8) ≤ 20
    ∧ Kmm.pbuddyFreeList Kmm.pbuddyRegion 32 (Kmm.pbuddyRegion.free 8)
        = [1048576] := by
  refine ⟨by decide, by decide, ?_, by decide⟩
  have h : Nat.clog 2 8 = 3 := by
    have := Nat.clog_pow 2 3 (by norm_num)
    simpa using this
  simp [h]

/-- C5 amended: the request exponent is `ctz(next_pow2(size))` =
`⌈log2 size⌉` with no lower clamp; every request whose exponent lies
outside `[min_exp, max_exp]` fails — in particular one smaller than
`2^min_exp` is rejected, not served at `min_exp` — and an in-range
request on the fresh region succeeds. -/
theorem pbuddy_alloc_exponent_guard :
    (∀ (fuel : Nat) (st : Kmm.PBuddyState) (size : Nat),
      ((Kmm.reqExp size : Int) < st.min_exp ∨ (Kmm.reqExp size : Int) > st.exp) →
      (Kmm.pbuddy_alloc fuel st size).1 = none)
    ∧ (Kmm.pbuddy_alloc 64 Kmm.pbuddyRegion 4096).1 = some 1048576 := by
  constructor
  · intro fuel st size h
    unfold Kmm.pbuddy_alloc
    rw [if_pos h]
  · decide

/-- Witness for C5 (amended): a request of 8 bytes (exponent 3, below
`min_exp = 12`) fails on the 1 MiB region. -/
theorem pbuddy_alloc_exponent_guard_witness :
    (Kmm.pbuddy_alloc 1 Kmm.pbuddyRegion 8).1 = none :=
  pbuddy_alloc_exponent_guard.1 1 Kmm.pbuddyRegion 8 (by decide)
